import Mathlib

/-!
Verification of the dicto desktop dictation orchestration layer.

This file shallowly embeds the parts of the repository that drive the
push-to-talk capture session: the writing-style category resolution
(`src/apps/desktop/src/lib/writing-styles.ts`), the floating-widget
session state machine and transcript accumulator
(`src/apps/desktop/src/components/app-sidebar.tsx`, `Widget` component),
and the cache invalidation layer
(`src/apps/desktop/src/lib/tauri-query/event-sync.ts`).

External collaborators (the Tauri commands, the browser `URL` parser,
the SQLite store, and the query-cache client) are modelled as explicit
inputs: each asynchronous command outcome is passed in as data, so the
handlers become pure functions from a session value and the command
outcomes to a new session value plus the list of external calls they
issue.
-/

namespace Dicto

/-- The four writing-style categories, the keys of `STYLES` in
`writing-styles.ts`. -/
inductive Category where
  | Personal
  | Work
  | Email
  | General
deriving DecidableEq, Repr

/-- The string name of a category, as used in the TypeScript record keys
and in the `stopRecording(category, style)` command arguments. -/
def Category.toName : Category → String
  | .Personal => "Personal"
  | .Work => "Work"
  | .Email => "Email"
  | .General => "General"

/-- `DEFAULT_STYLES` from `writing-styles.ts`: the fixed per-category
default style key. -/
def DEFAULT_STYLES : Category → String
  | .Personal => "casual"
  | .Work => "professional"
  | .Email => "formal"
  | .General => "casual"

/-- `APP_TO_CATEGORY` from `writing-styles.ts`: native app name to
category, in source insertion order. -/
def APP_TO_CATEGORY : List (String × Category) :=
  [("Messages", .Personal),
   ("WhatsApp", .Personal),
   ("Telegram", .Personal),
   ("Slack", .Work),
   ("Microsoft Teams", .Work),
   ("Discord", .Work),
   ("Linkedin", .Work),
   ("LinkedIn", .Work),
   ("Mail", .Email),
   ("Microsoft Outlook", .Email)]

/-- `DOMAIN_TO_CATEGORY` from `writing-styles.ts`: URL domain to
category, in source insertion order. -/
def DOMAIN_TO_CATEGORY : List (String × Category) :=
  [("web.whatsapp.com", .Personal),
   ("web.telegram.org", .Personal),
   ("app.slack.com", .Work),
   ("teams.microsoft.com", .Work),
   ("discord.com", .Work),
   ("linkedin.com", .Work),
   ("mail.google.com", .Email),
   ("outlook.live.com", .Email),
   ("outlook.office.com", .Email)]

/-- `APP_TO_CATEGORY[appName] ?? null`: record lookup by app name. -/
def lookupApp (appName : String) : Option Category :=
  (APP_TO_CATEGORY.find? (fun p => p.1 == appName)).map (·.2)

/-- The suffix test in `getCategoryForApp`:
`hostname === domain || hostname.endsWith("." + domain)`. -/
def domainMatches (hostname domain : String) : Bool :=
  hostname == domain || hostname.endsWith ("." ++ domain)

/-- The `for (const [domain, category] of Object.entries(DOMAIN_TO_CATEGORY))`
loop in `getCategoryForApp`: first entry whose domain suffix-matches the
hostname. -/
def findCategoryByDomain (hostname : String) : Option Category :=
  (DOMAIN_TO_CATEGORY.find? (fun p => domainMatches hostname p.1)).map (·.2)

/-- `getCategoryForApp` from `writing-styles.ts`. The browser URL parser
is an external collaborator and is passed in as `parseHost`: it returns
the hostname of a parseable URL string and `none` when the `URL`
constructor would throw (the `catch` branch falls through to the
app-name lookup, as does a missing or falsy empty url). -/
def getCategoryForApp (appName : String) (url : Option String)
    (parseHost : String → Option String) : Option Category :=
  match url with
  | some u =>
    if u == "" then lookupApp appName
    else
      match parseHost u with
      | some hostname =>
        match findCategoryByDomain hostname with
        | some c => some c
        | none => lookupApp appName
      | none => lookupApp appName
  | none => lookupApp appName

/-- `getSelectedStyleForCategory` from `writing-styles.ts`. The SQLite
query outcome is passed in as `dbRows`: `none` models a load/select
failure (the `catch` branch), `some rows` the list of `selected_style`
values returned. The source returns `result[0].selected_style` when the
result is nonempty and its first value truthy, else the per-category
default. -/
def getSelectedStyleForCategory (category : Category)
    (dbRows : Option (List String)) : String :=
  match dbRows with
  | none => DEFAULT_STYLES category
  | some rows =>
    match rows.head? with
    | some s => if s == "" then DEFAULT_STYLES category else s
    | none => DEFAULT_STYLES category

/-- The payload of a `transcription-result` event as read by the widget
listener: the transcripts of `channel.alternatives`, the `is_final`
flag, and the `start` offset used as deduplication key. -/
structure TranscriptionResult where
  alternatives : List String
  is_final : Bool
  start : Int
deriving DecidableEq, Repr

/-- The accumulator state held by the widget in `transcriptionRef` and
`seenStartTimestamps`. -/
structure AccumulatorState where
  transcript : String
  seenStartTimestamps : List Int
deriving DecidableEq, Repr

/-- The join used by the listener: `prev ? prev + " " + text : text`. -/
def joinTranscript (prev text : String) : String :=
  if prev == "" then text else prev ++ " " ++ text

/-- The `transcription-result` listener body in `app-sidebar.tsx`
(`Widget`): only a result with a truthy first alternative transcript and
`is_final` set is considered; a `start` offset already seen is skipped;
otherwise the offset is recorded and the text appended with single-space
joining and the result trimmed. The boolean reports whether the segment
was applied to the transcript. -/
def ingestTranscriptionResult (st : AccumulatorState)
    (r : TranscriptionResult) : AccumulatorState × Bool :=
  match r.alternatives.head? with
  | some text =>
    if text != "" && r.is_final then
      if st.seenStartTimestamps.contains r.start then
        (st, false)
      else
        ({ transcript := (joinTranscript st.transcript text).trim,
           seenStartTimestamps := r.start :: st.seenStartTimestamps }, true)
    else (st, false)
  | none => (st, false)

/-- The widget UI state: `"dictate"` (idle), `"recording"`,
`"processing"`. -/
inductive WidgetState where
  | dictate
  | recording
  | processing
deriving DecidableEq, Repr

/-- The per-session widget state: the `state` hook plus the refs the
`Widget` component keeps (`transcriptionRef`, `seenStartTimestamps`,
`detectedCategoryRef`, `selectedStyleRef`, `keytermsRef`). -/
structure WidgetSession where
  state : WidgetState
  transcript : String
  seenStartTimestamps : List Int
  detectedCategory : Option Category
  selectedStyle : Option String
  keyterms : List String
deriving DecidableEq, Repr

/-- One row as returned by `commands.keytermsList`. -/
structure Keyterm where
  text : String
  category : String
deriving DecidableEq, Repr

/-- The settings fields the widget handlers read. -/
structure Settings where
  autoDetectLanguage : Bool
  languages : List String
  postProcess : Bool
  cloudTranscription : Bool
deriving DecidableEq, Repr

/-- The argument record of `commands.startRecording`. -/
structure StartRecordingArgs where
  autoDetectLanguage : Bool
  languages : List String
  keyterms : List String
  useCloud : Bool
deriving DecidableEq, Repr

/-- Outcome of the `commands.getFrontmostApp()` call: `ok` carries the
detected `app_name` and optional `url`; `error` is a returned
`status: "error"` result; `threw` is a rejected promise, which lands in
the handler's `.catch` branch. -/
inductive FrontmostAppResult where
  | ok (app_name : String) (url : Option String)
  | error
  | threw
deriving DecidableEq, Repr

/-- `fetchKeytermsForCategory` from `app-sidebar.tsx`: on a command
error or a thrown exception (`backend = none`) it returns `[]`;
otherwise it keeps the rows whose category equals the requested one
(`kt.category === category`, never true when the requested category is
null) or is `"all"`, and maps to the text. -/
def fetchKeytermsForCategory (category : Option Category)
    (backend : Option (List Keyterm)) : List String :=
  match backend with
  | none => []
  | some kts =>
    (kts.filter (fun kt =>
      (match category with
       | some c => kt.category == c.toName
       | none => false) || kt.category == "all")).map (·.text)

/-- The `start-listening` listener of the `Widget` component. Effective
only in the `"dictate"` state, where it clears the transcript and seen
keys, then runs the resolution chain on the frontmost-app outcome:
on `ok` it resolves the category (falling back to `"General"`), the
saved style and the keyterms, stores them in the refs and starts
recording; on an `error` result it nulls the category/style refs,
fetches keyterms for the null category and still starts recording; on a
thrown query the `.catch` branch logs, resets the state to `"dictate"`
and nulls the refs without starting recording. The second component
lists the `commands.startRecording` calls issued. -/
def onStartListening (s : WidgetSession) (settings : Settings)
    (app : FrontmostAppResult) (keytermsBackend : Option (List Keyterm))
    (styleRows : Category → Option (List String))
    (parseHost : String → Option String) :
    WidgetSession × List StartRecordingArgs :=
  match s.state with
  | .dictate =>
    let s0 : WidgetSession := { s with transcript := "", seenStartTimestamps := [] }
    match app with
    | .threw =>
      ({ s0 with state := .dictate, detectedCategory := none, selectedStyle := none }, [])
    | .error =>
      let kts := fetchKeytermsForCategory none keytermsBackend
      ({ s0 with state := .recording, detectedCategory := none,
                 selectedStyle := none, keyterms := kts },
       [{ autoDetectLanguage := settings.autoDetectLanguage,
          languages := settings.languages,
          keyterms := kts,
          useCloud := settings.cloudTranscription }])
    | .ok app_name url =>
      let category := (getCategoryForApp app_name url parseHost).getD .General
      let style := getSelectedStyleForCategory category (styleRows category)
      let kts := fetchKeytermsForCategory (some category) keytermsBackend
      ({ s0 with state := .recording, detectedCategory := some category,
                 selectedStyle := some style, keyterms := kts },
       [{ autoDetectLanguage := settings.autoDetectLanguage,
          languages := settings.languages,
          keyterms := kts,
          useCloud := settings.cloudTranscription }])
  | _ => (s, [])

/-- The `(category, style)` pair passed to `commands.stopRecording`:
the source condition is `category && style && currentSettings.postProcess`,
with the truthiness of `style` excluding both null and the empty
string; otherwise both arguments are empty strings (raw passthrough). -/
def stopRecordingArgs (category : Option Category) (style : Option String)
    (postProcess : Bool) : String × String :=
  match category, style with
  | some c, some st =>
    if st != "" && postProcess then (c.toName, st) else ("", "")
  | _, _ => ("", "")

/-- The `stop-listening` listener of the `Widget` component. Effective
only in the `"recording"` state, where it immediately shows the
processing state and invokes `commands.stopRecording` once with the
category and style frozen in the refs (or empty strings). The second
component lists the `commands.stopRecording` calls issued. -/
def onStopListening (s : WidgetSession) (postProcess : Bool) :
    WidgetSession × List (String × String) :=
  match s.state with
  | .recording =>
    ({ s with state := .processing },
     [stopRecordingArgs s.detectedCategory s.selectedStyle postProcess])
  | _ => (s, [])

/-- The `paste-complete` listener of the `Widget` component: it
unconditionally sets the state to `"dictate"` and clears the
transcription and the seen timestamps; it issues no external calls. -/
def onPasteComplete (s : WidgetSession) :
    WidgetSession × List (String × String) :=
  ({ s with state := .dictate, transcript := "", seenStartTimestamps := [] }, [])

/-- The `transcription-error` listener of the `Widget` component: its
body only logs `event.payload`; it changes no state and issues no
external calls. -/
def onTranscriptionErrorEvent (s : WidgetSession) :
    WidgetSession × List (String × String) :=
  (s, [])

/-- The `transcription-processing` listener of the `Widget` component:
it unconditionally sets the state to `"processing"`. -/
def onTranscriptionProcessing (s : WidgetSession) :
    WidgetSession × List (String × String) :=
  ({ s with state := .processing }, [])

/-- The cancel button of the processing widget: its `onClick` sets the
state to `"dictate"` and then calls `stopRecording()`, which sets the
state to `"processing"` again and invokes `commands.stopRecording` once
with the same `(category, style)` logic as the hotkey-up path. -/
def onCancelProcessing (s : WidgetSession) (postProcess : Bool) :
    WidgetSession × List (String × String) :=
  ({ s with state := .processing },
   [stopRecordingArgs s.detectedCategory s.selectedStyle postProcess])

/-- A query key, as in `tauri-query/keys.ts`: a list of string parts. -/
abbrev QueryKey := List String

/-- `EVENT_INVALIDATION_MAP` from `event-sync.ts`, with the query keys
from `queryKeys` in `tauri-query/keys.ts` evaluated:
`notes.all = ["notes"]`, `notes.list() = ["notes","list"]`,
`transcriptions.analytics() = ["transcriptions","analytics"]`, and so
on. -/
def EVENT_INVALIDATION_MAP : List (String × List QueryKey) :=
  [("notes:created", [["notes", "list"]]),
   ("notes:updated", [["notes"]]),
   ("notes:deleted", [["notes"]]),
   ("keyterms:created", [["keyterms"]]),
   ("keyterms:updated", [["keyterms"]]),
   ("keyterms:deleted", [["keyterms"]]),
   ("shortcuts:created", [["shortcuts"]]),
   ("shortcuts:updated", [["shortcuts"]]),
   ("shortcuts:deleted", [["shortcuts"]]),
   ("transcriptions:created",
      [["transcriptions", "list"], ["transcriptions", "analytics"]]),
   ("transcriptions:updated", [["transcriptions"]]),
   ("transcriptions:deleted",
      [["transcriptions"], ["transcriptions", "analytics"]]),
   ("settings:updated", [["settings"]]),
   ("writing_styles:updated", [["writingStyles"]]),
   ("keys_vault:updated", [["keysVault"]]),
   ("keys_vault:deleted", [["keysVault"]])]

/-- A process-local cache entry keyed by a query key, carrying a
staleness flag and the cached value. -/
structure CacheEntry (α : Type) where
  key : QueryKey
  stale : Bool
  value : α
deriving DecidableEq, Repr

/-- Modelled from the spec: the external query client's
`invalidateQueries({queryKey})` marks an entry stale when the given key
is a prefix of the entry's key ("every matching CacheEntry is marked
stale"); src only contains the caller (`event-sync.ts`), not the query
client itself. -/
def invalidateEntry (pre : QueryKey) (e : CacheEntry α) : CacheEntry α :=
  if pre.isPrefixOf e.key then { e with stale := true } else e

/-- Modelled from the spec: `queryClient.invalidateQueries` applied to a
whole surface-local cache marks every matching entry stale. -/
def invalidateQueries (c : List (CacheEntry α)) (pre : QueryKey) :
    List (CacheEntry α) :=
  c.map (invalidateEntry pre)

/-- The listener installed by `setupEventSync` for a domain event name:
for each mapped key prefix it invalidates the matching cache entries;
an unmapped event name has no listener and leaves the cache unchanged. -/
def onDomainEvent (c : List (CacheEntry α)) (eventName : String) :
    List (CacheEntry α) :=
  match (EVENT_INVALIDATION_MAP.find? (fun p => p.1 == eventName)).map (·.2) with
  | some keys => keys.foldl invalidateQueries c
  | none => c

/-- Modelled from the spec: a read of a cache key returns the cached
value when the entry is present and fresh, and refetches — second
component `true` — when the entry is absent or stale ("the next read
simply refetches"). -/
def readQuery (c : List (CacheEntry α)) (k : QueryKey) (fetched : α) :
    α × Bool :=
  match c.find? (fun e => e.key == k) with
  | some e => if e.stale then (fetched, true) else (e.value, false)
  | none => (fetched, true)

/-- Claim C1: segment ingestion is idempotent and restricted to final
segments. A final segment whose start offset is already seen is not
applied and leaves the transcript unchanged; ingesting the same result
twice yields the same accumulator state as ingesting it once; a
non-final segment is never merged; a first-time final segment's text is
appended with single-space joining and the result trimmed. -/
theorem ingest_idempotent_final_only :
    ∀ (st : AccumulatorState) (r : TranscriptionResult),
      (r.is_final = true → r.start ∈ st.seenStartTimestamps →
        ingestTranscriptionResult st r = (st, false)) ∧
      (ingestTranscriptionResult (ingestTranscriptionResult st r).1 r).1
        = (ingestTranscriptionResult st r).1 ∧
      (r.is_final = false → ingestTranscriptionResult st r = (st, false)) ∧
      (∀ text, r.alternatives.head? = some text → text ≠ "" →
        r.is_final = true →
        r.start ∉ st.seenStartTimestamps →
        ingestTranscriptionResult st r =
          ({ transcript := (joinTranscript st.transcript text).trim,
             seenStartTimestamps := r.start :: st.seenStartTimestamps }, true)) := by
  intro st r
  refine ⟨?_, ?_, ?_, ?_⟩
  · intro hfin hseen
    cases hh : r.alternatives.head? with
    | none => simp [ingestTranscriptionResult, hh]
    | some text =>
      by_cases ht : text = ""
      · simp [ingestTranscriptionResult, hh, ht]
      · simp [ingestTranscriptionResult, hh, ht, hfin, hseen]
  · cases hh : r.alternatives.head? with
    | none => simp [ingestTranscriptionResult, hh]
    | some text =>
      by_cases ht : text = ""
      · simp [ingestTranscriptionResult, hh, ht]
      · by_cases hfin : r.is_final
        · by_cases hseen : r.start ∈ st.seenStartTimestamps
          · simp [ingestTranscriptionResult, hh, ht, hfin, hseen]
          · simp [ingestTranscriptionResult, hh, ht, hfin, hseen]
        · simp [ingestTranscriptionResult, hh, ht, hfin]
  · intro hfin
    cases hh : r.alternatives.head? with
    | none => simp [ingestTranscriptionResult, hh]
    | some text => simp [ingestTranscriptionResult, hh, hfin]
  · intro text hh ht hfin hseen
    simp [ingestTranscriptionResult, hh, ht, hfin, hseen]

/-- Witness for C1 (Scenario B shape): redelivering the final segment
with start offset 0 after it has been seen leaves the accumulator
unchanged and reports not applied. -/
theorem ingest_idempotent_final_only_witness :
    (TranscriptionResult.mk ["hello"] true 0).is_final = true ∧
    (TranscriptionResult.mk ["hello"] true 0).start ∈
      (AccumulatorState.mk "hello" [0]).seenStartTimestamps ∧
    ingestTranscriptionResult (AccumulatorState.mk "hello" [0])
      (TranscriptionResult.mk ["hello"] true 0)
      = (AccumulatorState.mk "hello" [0], false) :=
  ⟨rfl, by decide,
   (ingest_idempotent_final_only (AccumulatorState.mk "hello" [0])
     (TranscriptionResult.mk ["hello"] true 0)).1 rfl (by decide)⟩

/-- Claim C2: the hotkey-up signal is only effective in the recording
state, where it moves the widget to processing and issues exactly one
`stopRecording` call with the frozen category and style — the pair
`(category, style)` when both are resolved, the style nonempty and
post-processing enabled, and `("", "")` when there is no resolved
category or the formatting setting is disabled. -/
theorem stop_listening_spec :
    ∀ (s : WidgetSession) (postProcess : Bool),
      (s.state = WidgetState.recording →
        (onStopListening s postProcess).1.state = WidgetState.processing ∧
        (onStopListening s postProcess).2 =
          [stopRecordingArgs s.detectedCategory s.selectedStyle postProcess] ∧
        (∀ c sty, s.detectedCategory = some c → s.selectedStyle = some sty →
          sty ≠ "" → postProcess = true →
          (onStopListening s postProcess).2 = [(c.toName, sty)]) ∧
        ((s.detectedCategory = none ∨ postProcess = false) →
          (onStopListening s postProcess).2 = [("", "")])) ∧
      (s.state ≠ WidgetState.recording →
        onStopListening s postProcess = (s, [])) := by
  intro s postProcess
  obtain ⟨st, tr, seen, dc, ss, kt⟩ := s
  constructor
  · intro h
    dsimp at h
    subst h
    refine ⟨rfl, rfl, ?_, ?_⟩
    · intro c sty hdc hss hsty hpp
      dsimp at hdc hss
      subst hdc; subst hss; subst hpp
      simp [onStopListening, stopRecordingArgs, hsty]
    · intro h
      dsimp at h
      rcases h with h | h
      · subst h
        simp [onStopListening, stopRecordingArgs]
      · subst h
        cases dc <;> cases ss <;>
          simp [onStopListening, stopRecordingArgs]
  · intro h
    dsimp at h
    cases st with
    | dictate => rfl
    | recording => exact absurd rfl h
    | processing => rfl

/-- Witness for C2 (Scenario A): from a recording session whose frozen
context is category Work and style "professional", with post-processing
enabled, hotkey-up moves to processing and calls
`stopRecording("Work", "professional")` exactly once. -/
theorem stop_listening_spec_witness :
    (WidgetSession.mk WidgetState.recording "" [] (some Category.Work)
      (some "professional") ["OAuth", "PostgreSQL"]).state
        = WidgetState.recording ∧
    (onStopListening (WidgetSession.mk WidgetState.recording "" []
      (some Category.Work) (some "professional")
      ["OAuth", "PostgreSQL"]) true).1.state = WidgetState.processing ∧
    (onStopListening (WidgetSession.mk WidgetState.recording "" []
      (some Category.Work) (some "professional")
      ["OAuth", "PostgreSQL"]) true).2 = [("Work", "professional")] :=
  ⟨rfl,
   ((stop_listening_spec (WidgetSession.mk WidgetState.recording "" []
      (some Category.Work) (some "professional")
      ["OAuth", "PostgreSQL"]) true).1 rfl).1,
   ((stop_listening_spec (WidgetSession.mk WidgetState.recording "" []
      (some Category.Work) (some "professional")
      ["OAuth", "PostgreSQL"]) true).1 rfl).2.2.1 Category.Work
      "professional" rfl rfl (by decide) rfl⟩

/-- Claim C3 counterexample: a `transcription-error` received while the
widget is processing does not reset the state to idle — the listener
only logs, so the state stays processing. -/
theorem transcription_error_counterexample :
    (onTranscriptionErrorEvent (WidgetSession.mk WidgetState.processing
      "hello" [0] (some Category.Work) (some "professional") [])).1.state
      ≠ WidgetState.dictate := by
  decide

/-- Claim C3 amended: the `transcription-error` listener only logs the
message; it leaves the whole session unchanged — in any state — and
never invokes the stop-capture operation. -/
theorem transcription_error_noop :
    ∀ s : WidgetSession, onTranscriptionErrorEvent s = (s, []) :=
  fun _ => rfl

/-- Claim C8: a `start-listening` signal received while the widget is
recording or processing is a no-op — no session field is reset and no
`startRecording` call is issued, so at most one capture session is ever
active. -/
theorem hotkey_down_noop :
    ∀ (s : WidgetSession) (settings : Settings) (app : FrontmostAppResult)
      (ktb : Option (List Keyterm))
      (styleRows : Category → Option (List String))
      (pH : String → Option String),
      s.state = WidgetState.recording ∨ s.state = WidgetState.processing →
      onStartListening s settings app ktb styleRows pH = (s, []) := by
  intro s settings app ktb styleRows pH h
  obtain ⟨st, tr, seen, dc, ss, kt⟩ := s
  dsimp at h
  rcases h with h | h <;> (subst h; rfl)

/-- Witness for C8: a concrete recording session with a pending
transcript is left fully unchanged by a second hotkey-down, and no
capture is started. -/
theorem hotkey_down_noop_witness :
    ((WidgetSession.mk WidgetState.recording "hello" [0]
        (some Category.Work) (some "professional") []).state
          = WidgetState.recording ∨
      (WidgetSession.mk WidgetState.recording "hello" [0]
        (some Category.Work) (some "professional") []).state
          = WidgetState.processing) ∧
    onStartListening (WidgetSession.mk WidgetState.recording "hello" [0]
        (some Category.Work) (some "professional") [])
        (Settings.mk true ["en"] true false) (FrontmostAppResult.ok "Slack" none)
        (some []) (fun _ => none) (fun _ => none)
      = (WidgetSession.mk WidgetState.recording "hello" [0]
          (some Category.Work) (some "professional") [], []) :=
  ⟨Or.inl rfl,
   hotkey_down_noop (WidgetSession.mk WidgetState.recording "hello" [0]
      (some Category.Work) (some "professional") [])
      (Settings.mk true ["en"] true false) (FrontmostAppResult.ok "Slack" none)
      (some []) (fun _ => none) (fun _ => none) (Or.inl rfl)⟩

/-- Claim C4 counterexample: cancelling while processing with a frozen
context (category Work, style "professional") and post-processing
enabled invokes `stopRecording("Work", "professional")`, not the
empty-context `stopRecording("", "")` that the claim requires for a
silent discard. -/
theorem cancel_empty_context_counterexample :
    (onCancelProcessing (WidgetSession.mk WidgetState.processing "" []
      (some Category.Work) (some "professional") []) true).2
      ≠ [("", "")] := by
  decide

/-- Claim C4 amended: cancelling while processing invokes the
stop-capture operation exactly once per cancel press, with the frozen
`(category, style)` pair when the context is resolved, the style
nonempty and post-processing enabled, and empty strings otherwise;
there is no single-shot guard, but a paste-complete arriving after the
cancel never invokes stop-capture itself — it only resets the state to
idle and clears the transcript. -/
theorem cancel_amended :
    ∀ (s : WidgetSession) (postProcess : Bool),
      s.state = WidgetState.processing →
      (onCancelProcessing s postProcess).2 =
        [stopRecordingArgs s.detectedCategory s.selectedStyle postProcess] ∧
      ((onCancelProcessing s postProcess).2).length = 1 ∧
      (onPasteComplete (onCancelProcessing s postProcess).1).2 = [] ∧
      (onPasteComplete (onCancelProcessing s postProcess).1).1.state
        = WidgetState.dictate := by
  intro s postProcess _
  exact ⟨rfl, rfl, rfl, rfl⟩

/-- Witness for C4 amended: cancelling a processing session with an
unresolved context issues exactly one `stopRecording("", "")` call, and
a late paste-complete issues none and resets to idle. -/
theorem cancel_amended_witness :
    (WidgetSession.mk WidgetState.processing "" [] none none []).state
      = WidgetState.processing ∧
    (onCancelProcessing (WidgetSession.mk WidgetState.processing "" []
      none none []) false).2 = [("", "")] ∧
    (onPasteComplete (onCancelProcessing (WidgetSession.mk
      WidgetState.processing "" [] none none []) false).1).1.state
      = WidgetState.dictate :=
  ⟨rfl,
   (cancel_amended (WidgetSession.mk WidgetState.processing "" []
      none none []) false rfl).1,
   (cancel_amended (WidgetSession.mk WidgetState.processing "" []
      none none []) false rfl).2.2.2⟩

/-- Claim C5 counterexample: when the frontmost-app query throws, the
handler's catch branch resets the widget to idle and no
`startRecording` call is issued — the capture session does not start,
contrary to the claim that resolution failure never prevents capture
from completing. -/
theorem start_listening_throw_counterexample :
    (onStartListening (WidgetSession.mk WidgetState.dictate "" []
        none none []) (Settings.mk true ["en"] true false)
        FrontmostAppResult.threw (some [Keyterm.mk "PostgreSQL" "all"])
        (fun _ => none) (fun _ => none)).2 = [] ∧
    (onStartListening (WidgetSession.mk WidgetState.dictate "" []
        none none []) (Settings.mk true ["en"] true false)
        FrontmostAppResult.threw (some [Keyterm.mk "PostgreSQL" "all"])
        (fun _ => none) (fun _ => none)).1.state = WidgetState.dictate := by
  exact ⟨rfl, rfl⟩

/-- Claim C5 amended: when the frontmost-app query returns an error
result (fails without throwing), the category and style refs
short-circuit to null, the error is logged, capture still starts with
exactly one `startRecording` call (whose keyterms are those fetched for
the null category, i.e. the `"all"`-tagged ones), and the subsequent
hotkey-up invokes `stopRecording("", "")` for raw passthrough; when the
query throws, the catch branch resets the widget to idle and capture
does not start. -/
theorem start_listening_error_amended :
    ∀ (s : WidgetSession) (settings : Settings)
      (ktb : Option (List Keyterm))
      (styleRows : Category → Option (List String))
      (pH : String → Option String),
      s.state = WidgetState.dictate →
      ((onStartListening s settings FrontmostAppResult.error ktb styleRows
          pH).1.state = WidgetState.recording ∧
        (onStartListening s settings FrontmostAppResult.error ktb styleRows
          pH).1.detectedCategory = none ∧
        (onStartListening s settings FrontmostAppResult.error ktb styleRows
          pH).1.selectedStyle = none ∧
        (onStartListening s settings FrontmostAppResult.error ktb styleRows
          pH).2 =
          [{ autoDetectLanguage := settings.autoDetectLanguage,
             languages := settings.languages,
             keyterms := fetchKeytermsForCategory none ktb,
             useCloud := settings.cloudTranscription }] ∧
        (onStopListening (onStartListening s settings
            FrontmostAppResult.error ktb styleRows pH).1
            settings.postProcess).2 = [("", "")]) ∧
      ((onStartListening s settings FrontmostAppResult.threw ktb styleRows
          pH).1.state = WidgetState.dictate ∧
        (onStartListening s settings FrontmostAppResult.threw ktb styleRows
          pH).2 = []) := by
  intro s settings ktb styleRows pH h
  obtain ⟨st, tr, seen, dc, ss, kt⟩ := s
  dsimp at h
  subst h
  exact ⟨⟨rfl, rfl, rfl, rfl, rfl⟩, rfl, rfl⟩

/-- Witness for C5 amended: with a concrete idle session and an
`"all"`-tagged keyterm in the backend, an error result still starts
capture once (with that keyterm) and hotkey-up requests raw
passthrough. -/
theorem start_listening_error_amended_witness :
    (WidgetSession.mk WidgetState.dictate "" [] none none []).state
      = WidgetState.dictate ∧
    (onStartListening (WidgetSession.mk WidgetState.dictate "" []
        none none []) (Settings.mk true ["en"] true false)
        FrontmostAppResult.error (some [Keyterm.mk "PostgreSQL" "all"])
        (fun _ => none) (fun _ => none)).2 =
      [{ autoDetectLanguage := true, languages := ["en"],
         keyterms := ["PostgreSQL"], useCloud := false }] ∧
    (onStopListening (onStartListening (WidgetSession.mk
        WidgetState.dictate "" [] none none [])
        (Settings.mk true ["en"] true false) FrontmostAppResult.error
        (some [Keyterm.mk "PostgreSQL" "all"]) (fun _ => none)
        (fun _ => none)).1 true).2 = [("", "")] := by
  refine ⟨rfl, ?_, ?_⟩
  · have h := ((start_listening_error_amended (WidgetSession.mk
      WidgetState.dictate "" [] none none [])
      (Settings.mk true ["en"] true false)
      (some [Keyterm.mk "PostgreSQL" "all"]) (fun _ => none)
      (fun _ => none) rfl).1).2.2.2.1
    simpa using h
  · exact ((start_listening_error_amended (WidgetSession.mk
      WidgetState.dictate "" [] none none [])
      (Settings.mk true ["en"] true false)
      (some [Keyterm.mk "PostgreSQL" "all"]) (fun _ => none)
      (fun _ => none) rfl).1).2.2.2.2

/-- Claim C9 counterexample: a `paste-complete` arriving while the
widget is recording does not leave the session unchanged — the listener
unconditionally resets the state to idle and clears the transcript. -/
theorem paste_complete_counterexample :
    (onPasteComplete (WidgetSession.mk WidgetState.recording "hello" [0]
      none none [])).1.state ≠ WidgetState.recording := by
  decide

/-- Claim C9 amended: the hotkey handlers are guarded — hotkey-down is a
no-op outside idle and hotkey-up a no-op outside recording — but the
backend-event listeners are not: `paste-complete` always resets the
state to idle and clears the transcript and seen keys whatever the
current state, and `transcription-processing` always sets the state to
processing; neither issues a stop-capture call. -/
theorem lifecycle_transitions_amended :
    (∀ (s : WidgetSession) (settings : Settings) (app : FrontmostAppResult)
      (ktb : Option (List Keyterm))
      (styleRows : Category → Option (List String))
      (pH : String → Option String),
      s.state ≠ WidgetState.dictate →
      onStartListening s settings app ktb styleRows pH = (s, [])) ∧
    (∀ (s : WidgetSession) (postProcess : Bool),
      s.state ≠ WidgetState.recording →
      onStopListening s postProcess = (s, [])) ∧
    (∀ s : WidgetSession,
      onPasteComplete s =
        ({ s with state := WidgetState.dictate, transcript := "",
                  seenStartTimestamps := [] }, [])) ∧
    (∀ s : WidgetSession,
      onTranscriptionProcessing s =
        ({ s with state := WidgetState.processing }, [])) := by
  refine ⟨?_, ?_, fun _ => rfl, fun _ => rfl⟩
  · intro s settings app ktb styleRows pH h
    obtain ⟨st, tr, seen, dc, ss, kt⟩ := s
    dsimp at h
    cases st with
    | dictate => exact absurd rfl h
    | recording => rfl
    | processing => rfl
  · intro s postProcess h
    obtain ⟨st, tr, seen, dc, ss, kt⟩ := s
    dsimp at h
    cases st with
    | dictate => rfl
    | recording => exact absurd rfl h
    | processing => rfl

/-- Witness for C9 amended: a hotkey-down while processing is a no-op,
and a paste-complete while recording resets a concrete session to idle
with a cleared transcript. -/
theorem lifecycle_transitions_amended_witness :
    (WidgetSession.mk WidgetState.processing "" [] none none []).state
      ≠ WidgetState.dictate ∧
    onStartListening (WidgetSession.mk WidgetState.processing "" []
        none none []) (Settings.mk true ["en"] true false)
        (FrontmostAppResult.ok "Slack" none) (some []) (fun _ => none)
        (fun _ => none)
      = (WidgetSession.mk WidgetState.processing "" [] none none [], []) ∧
    onPasteComplete (WidgetSession.mk WidgetState.recording "hello" [0]
        none none [])
      = (WidgetSession.mk WidgetState.dictate "" [] none none [], []) :=
  ⟨by decide,
   lifecycle_transitions_amended.1 (WidgetSession.mk WidgetState.processing
      "" [] none none []) (Settings.mk true ["en"] true false)
      (FrontmostAppResult.ok "Slack" none) (some []) (fun _ => none)
      (fun _ => none) (by decide),
   lifecycle_transitions_amended.2.2.1 (WidgetSession.mk
      WidgetState.recording "hello" [0] none none [])⟩

/-- Claim C10: `getCategoryForApp` is total over arbitrary url strings —
a malformed url (one on which the browser URL parser throws, here
`parseHost` returning none) is caught and the lookup falls through to
the app-name table, returning that table's category or none. -/
theorem getCategoryForApp_total :
    ∀ (appName u : String) (pH : String → Option String),
      pH u = none →
      getCategoryForApp appName (some u) pH = lookupApp appName := by
  intro appName u pH h
  by_cases hu : u == ""
  · simp [getCategoryForApp, hu]
  · simp [getCategoryForApp, hu, h]

/-- Witness for C10: with a parser that rejects every string, the
malformed url "not a url" falls through to the app table, which maps
"Slack" to the Work category. -/
theorem getCategoryForApp_total_witness :
    (fun _ : String => (none : Option String)) "not a url" = none ∧
    getCategoryForApp "Slack" (some "not a url")
      (fun _ => none) = lookupApp "Slack" ∧
    lookupApp "Slack" = some Category.Work :=
  ⟨rfl, getCategoryForApp_total "Slack" "not a url" (fun _ => none) rfl,
   by decide⟩

/-- The suffix rule as worded by the specification:
hostname equals the domain, or the hostname ends with "." followed by
the domain. Stated separately from `domainMatches` so the code's rule
can be compared against it. -/
def specDomainMatch (hostname domain : String) : Bool :=
  hostname == domain || hostname.endsWith ("." ++ domain)

/-- The specification-side domain lookup: the first domain-table entry
whose domain suffix-matches the hostname, by the spec's rule. -/
def specCategoryFromDomain (hostname : String) : Option Category :=
  (DOMAIN_TO_CATEGORY.find? (fun p => specDomainMatch hostname p.1)).map (·.2)

/-- The category decision order as worded by the specification: when a
URL is present and parseable, match its hostname against the domain
table; otherwise look the application name up in the app table; if
neither matches, fall back to the fixed default category General. -/
def categorySpecResolve (appName : String) (url : Option String)
    (parseHost : String → Option String) : Category :=
  let fromDomain : Option Category :=
    match url with
    | some u => (parseHost u).bind specCategoryFromDomain
    | none => none
  match fromDomain with
  | some c => c
  | none =>
    match lookupApp appName with
    | some c => c
    | none => Category.General

/-- A concrete stand-in for the browser URL parser used in witnesses:
it knows one Slack web-client URL and rejects everything else. -/
def parseHostSlackClient : String → Option String :=
  fun u =>
    if u == "https://app.slack.com/client" then some "app.slack.com"
    else none

/-- Claim C6: category determination follows the specified decision
order — domain-table suffix match on the hostname when a URL is
present, else the app-name table, else the fixed default General (the
handler's fallback); and the style used is the user's saved style for
the category, or the fixed per-category default when none is recorded
(empty or missing row, or a storage failure). -/
theorem category_resolution_follows_spec :
    (∀ (appName : String) (url : Option String)
      (pH : String → Option String),
      pH "" = none →
      (getCategoryForApp appName url pH).getD Category.General
        = categorySpecResolve appName url pH) ∧
    (∀ (s : WidgetSession) (settings : Settings) (app_name : String)
      (url : Option String) (ktb : Option (List Keyterm))
      (styleRows : Category → Option (List String))
      (pH : String → Option String),
      s.state = WidgetState.dictate →
      (onStartListening s settings (FrontmostAppResult.ok app_name url)
          ktb styleRows pH).1.detectedCategory
        = some ((getCategoryForApp app_name url pH).getD Category.General) ∧
      (onStartListening s settings (FrontmostAppResult.ok app_name url)
          ktb styleRows pH).1.selectedStyle
        = some (getSelectedStyleForCategory
            ((getCategoryForApp app_name url pH).getD Category.General)
            (styleRows
              ((getCategoryForApp app_name url pH).getD Category.General)))) ∧
    (∀ c, getSelectedStyleForCategory c none = DEFAULT_STYLES c) ∧
    (∀ c, getSelectedStyleForCategory c (some []) = DEFAULT_STYLES c) ∧
    (∀ c sty rest, sty ≠ "" →
      getSelectedStyleForCategory c (some (sty :: rest)) = sty) := by
  refine ⟨?_, ?_, fun c => rfl, fun c => rfl, ?_⟩
  · intro appName url pH hempty
    cases url with
    | none =>
      cases hla : lookupApp appName <;>
        simp [getCategoryForApp, categorySpecResolve, hla]
    | some u =>
      by_cases hu : u = ""
      · subst hu
        cases hla : lookupApp appName <;>
          simp [getCategoryForApp, categorySpecResolve, hempty, hla]
      · have hu' : (u == "") = false := by
          simp [hu]
        cases hp : pH u with
        | none =>
          cases hla : lookupApp appName <;>
            simp [getCategoryForApp, categorySpecResolve, hu', hp, hla]
        | some hostname =>
          have hsd : specCategoryFromDomain hostname
              = findCategoryByDomain hostname := rfl
          cases hd : findCategoryByDomain hostname with
          | none =>
            cases hla : lookupApp appName <;>
              simp [getCategoryForApp, categorySpecResolve, hu', hp, hsd,
                hd, hla]
          | some c =>
            simp [getCategoryForApp, categorySpecResolve, hu', hp, hsd, hd]
  · intro s settings app_name url ktb styleRows pH h
    obtain ⟨st, tr, seen, dc, ss, kt⟩ := s
    dsimp at h
    subst h
    exact ⟨rfl, rfl⟩
  · intro c sty rest hsty
    simp [getSelectedStyleForCategory, hsty]

/-- Witness for C6: for the Slack web client URL the code and the
specification decision order agree (both resolve the Work category),
and a nonempty saved style row "professional" is used unchanged. -/
theorem category_resolution_follows_spec_witness :
    parseHostSlackClient "" = none ∧
    (getCategoryForApp "Arc" (some "https://app.slack.com/client")
        parseHostSlackClient).getD Category.General
      = categorySpecResolve "Arc" (some "https://app.slack.com/client")
          parseHostSlackClient ∧
    categorySpecResolve "Arc" (some "https://app.slack.com/client")
        parseHostSlackClient = Category.Work ∧
    getSelectedStyleForCategory Category.Work (some ["professional"])
      = "professional" :=
  ⟨rfl,
   category_resolution_follows_spec.1 "Arc"
     (some "https://app.slack.com/client") parseHostSlackClient rfl,
   by decide,
   category_resolution_follows_spec.2.2.2.2 Category.Work "professional"
     [] (by decide)⟩

/-- Invalidation does not change an entry's key. -/
theorem invalidateEntry_key (pre : QueryKey) (e : CacheEntry α) :
    (invalidateEntry pre e).key = e.key := by
  unfold invalidateEntry
  split <;> rfl

/-- Invalidation never clears an already-set staleness flag. -/
theorem invalidateEntry_stale_of (pre : QueryKey) (e : CacheEntry α)
    (h : e.stale = true) : (invalidateEntry pre e).stale = true := by
  unfold invalidateEntry
  split <;> simp [h]

/-- The cumulative effect of a list of invalidations on one entry. -/
def invalidateAll (ks : List QueryKey) (e : CacheEntry α) : CacheEntry α :=
  ks.foldl (fun x p => invalidateEntry p x) e

/-- A run of invalidations does not change an entry's key. -/
theorem invalidateAll_key (ks : List QueryKey) (e : CacheEntry α) :
    (invalidateAll ks e).key = e.key := by
  induction ks generalizing e with
  | nil => rfl
  | cons p ps ih =>
    show (invalidateAll ps (invalidateEntry p e)).key = e.key
    rw [ih, invalidateEntry_key]

/-- A run of invalidations never clears the staleness flag. -/
theorem invalidateAll_stale_of (ks : List QueryKey) (e : CacheEntry α)
    (h : e.stale = true) : (invalidateAll ks e).stale = true := by
  induction ks generalizing e with
  | nil => exact h
  | cons p ps ih =>
    exact ih (invalidateEntry p e) (invalidateEntry_stale_of p e h)

/-- If one of the invalidated key prefixes matches an entry's key, the
run of invalidations leaves the entry stale. -/
theorem invalidateAll_stale_mem (ks : List QueryKey) (pre : QueryKey) :
    ∀ e : CacheEntry α, pre ∈ ks → pre.isPrefixOf e.key = true →
      (invalidateAll ks e).stale = true := by
  induction ks with
  | nil =>
    intro e hmem _
    cases hmem
  | cons p ps ih =>
    intro e hmem hpk
    rcases List.mem_cons.mp hmem with h | h
    · subst h
      show (invalidateAll ps (invalidateEntry pre e)).stale = true
      apply invalidateAll_stale_of
      unfold invalidateEntry
      simp [hpk]
    · show (invalidateAll ps (invalidateEntry p e)).stale = true
      exact ih (invalidateEntry p e) h
        (by rw [invalidateEntry_key]; exact hpk)

/-- Folding whole-cache invalidations equals mapping the per-entry
cumulative invalidation over the cache. -/
theorem foldl_invalidateQueries (ks : List QueryKey)
    (c : List (CacheEntry α)) :
    ks.foldl invalidateQueries c = c.map (invalidateAll ks) := by
  induction ks generalizing c with
  | nil =>
    show c = c.map (invalidateAll [])
    rw [show (invalidateAll ([] : List QueryKey) :
        CacheEntry α → CacheEntry α) = id from rfl, List.map_id]
  | cons p ps ih =>
    show ps.foldl invalidateQueries (invalidateQueries c p)
      = c.map (invalidateAll (p :: ps))
    rw [show invalidateQueries c p = c.map (invalidateEntry p) from rfl,
      ih, List.map_map]
    rfl

/-- Searching a mapped list is searching the original list with the
composed predicate. -/
theorem find?_map_cache (f : β → γ) (p : γ → Bool) (l : List β) :
    (l.map f).find? p = (l.find? (fun b => p (f b))).map f := by
  induction l with
  | nil => rfl
  | cons b bs ih =>
    by_cases h : p (f b)
    · simp [List.find?, h]
    · simp [List.find?, h, ih]

/-- Claim C7: for every domain mutation event name in the static
invalidation table, observing the event marks every cache entry
matching one of the mapped key prefixes stale, and the next read of an
affected key refetches instead of returning the pre-event value. -/
theorem event_invalidation_refetch :
    ∀ {α : Type} (eventName : String) (keys : List QueryKey)
      (pre k : QueryKey) (c : List (CacheEntry α)) (v : α),
      (EVENT_INVALIDATION_MAP.find? (fun p => p.1 == eventName)).map (·.2)
        = some keys →
      pre ∈ keys → pre.isPrefixOf k = true →
      (∀ e ∈ onDomainEvent c eventName, pre.isPrefixOf e.key = true →
        e.stale = true) ∧
      readQuery (onDomainEvent c eventName) k v = (v, true) := by
  intro α eventName keys pre k c v hmap hmem hk
  have hev : onDomainEvent c eventName = c.map (invalidateAll keys) := by
    unfold onDomainEvent
    rw [hmap]
    exact foldl_invalidateQueries keys c
  constructor
  · intro e he hpk
    rw [hev] at he
    obtain ⟨e0, _, rfl⟩ := List.mem_map.mp he
    rw [invalidateAll_key] at hpk
    exact invalidateAll_stale_mem keys pre e0 hmem hpk
  · rw [hev]
    unfold readQuery
    rw [find?_map_cache]
    have hp : (fun e0 : CacheEntry α => (invalidateAll keys e0).key == k)
        = (fun e0 : CacheEntry α => e0.key == k) := by
      funext e0
      rw [invalidateAll_key]
    rw [hp]
    cases hf : c.find? (fun e0 : CacheEntry α => e0.key == k) with
    | none => rfl
    | some e0 =>
      have hek : e0.key = k := by
        have h := List.find?_some hf
        exact eq_of_beq h
      have hst : (invalidateAll keys e0).stale = true := by
        apply invalidateAll_stale_mem keys pre e0 hmem
        rw [hek]
        exact hk
      simp [hst]

/-- Witness for C7 (Scenario E): publishing "notes:updated" marks a
fresh cached note-list entry stale, and its next read refetches the new
value. -/
theorem event_invalidation_refetch_witness :
    (EVENT_INVALIDATION_MAP.find?
        (fun p => p.1 == "notes:updated")).map (·.2)
      = some [["notes"]] ∧
    (["notes"] : QueryKey) ∈ ([[("notes" : String)]] : List QueryKey) ∧
    (["notes"] : QueryKey).isPrefixOf ["notes", "list"] = true ∧
    readQuery (onDomainEvent
        [CacheEntry.mk ["notes", "list"] false "old"] "notes:updated")
        ["notes", "list"] "new"
      = ("new", true) :=
  ⟨by decide, by decide, by decide,
   (event_invalidation_refetch "notes:updated" [["notes"]] ["notes"]
     ["notes", "list"] [CacheEntry.mk ["notes", "list"] false "old"]
     "new" (by decide) (by decide) (by decide)).2⟩

end Dicto
